import Mathlib

/-!
Verification of the makeitrain repository's resource-pool, monitoring,
retry, notification and MCP tool-dispatch code against its specification.

The definitions below are shallow embeddings of the TypeScript source:

* `RotatingProxyPool.getNext` — per-request proxy rotation
  (Proxy Strategy Guide, `RotatingProxyPool`);
* `BanDetector.markAsBanned`, `BanDetector.isBannedFor`,
  `BanDetector.getAvailableProxy`, `isProxyHealthy` — per-retailer ban
  tracking and proxy selection (Proxy Strategy Guide, `BanDetector` and
  `ProxyHealthChecker`);
* `monitorStock`, `monitorDelays` — the stock-monitoring loop
  (RETAILERS.md `monitorStock`);
* `withRetry` — the retry wrapper (RETAILERS.md `withRetry`);
* `notify` — the Discord notification sink (test-costco.ts `notify`);
* `waitToolDelayMs`, `handleToolCall`, `callToolHandler` — the MCP
  browser-automation server (mcp/server.ts, browser/launcher.ts `getPage`).

Machine integers do not overflow in any of the modelled code paths, so
numbers are modelled as `Nat` (times, counters) and `ℚ` (JavaScript
floating-point arithmetic on small, exactly representable values).
JavaScript `Map` objects are modelled as association lists with
`Map.get`/`Map.set` semantics.  Fallible operations return `Except` or
`Option`.
-/

namespace MakeItRain

/-- A proxy configuration record (id, connection data), as in the config
file format of the Proxy Strategy Guide. -/
structure ProxyConfig where
  id : String
  host : String
  port : Nat
  deriving Repr, DecidableEq

/-- The per-request rotation pool:
`class RotatingProxyPool { private proxies; private currentIndex = 0; ... }`. -/
structure RotatingProxyPool where
  proxies : List ProxyConfig
  currentIndex : Nat
  deriving Repr, DecidableEq

/-- `getNext()`: returns `proxies[currentIndex]` and advances
`currentIndex` to `(currentIndex + 1) % proxies.length`.  Out-of-range
indexing (empty pool) yields `none`, mirroring `undefined`. -/
def RotatingProxyPool.getNext (pool : RotatingProxyPool) :
    Option ProxyConfig × RotatingProxyPool :=
  (pool.proxies[pool.currentIndex]?,
   { pool with currentIndex := (pool.currentIndex + 1) % pool.proxies.length })

/-- The proxy handed out by the `(k+1)`-st of a sequence of `getNext`
calls on `pool` (indexed from `k = 0`). -/
def RotatingProxyPool.getNextAt (pool : RotatingProxyPool) : Nat → Option ProxyConfig
  | 0 => pool.getNext.1
  | k + 1 => pool.getNext.2.getNextAt k

/-- A concrete proxy used in the counterexamples. -/
def demoProxy : ProxyConfig :=
  { id := "res-1", host := "gate.smartproxy.com", port := 7000 }

/-- A pool holding a single proxy, fresh (`currentIndex = 0`). -/
def demoPool : RotatingProxyPool :=
  { proxies := [demoProxy], currentIndex := 0 }

theorem getNext_proxies (pool : RotatingProxyPool) :
    pool.getNext.2.proxies = pool.proxies := rfl

theorem getNext_currentIndex (pool : RotatingProxyPool) :
    pool.getNext.2.currentIndex =
      (pool.currentIndex + 1) % pool.proxies.length := rfl

/-- **C1 (counterexample).**  The claim states that a resource handed out
by `getNext` is not handed to any other caller until it has been released,
and that at most `N` resources are leased simultaneously for a pool of
size `N`.  For the one-proxy pool `demoPool`, the first and the second
`getNext` call both hand out `demoProxy` — the class records no lease and
has no release operation — so with two concurrent callers the single
resource is held by both at once, refuting the claim at pool size `N = 1`. -/
theorem c1_getNext_double_handout :
    demoPool.getNextAt 0 = some demoProxy ∧
    demoPool.getNextAt 1 = some demoProxy :=
  ⟨rfl, rfl⟩

/-- **C1 (amended).**  `getNext` is strict modular round-robin with no
lease tracking: starting from any pool whose `currentIndex` is in range,
the `(k+1)`-st call returns `proxies[(currentIndex + k) % proxies.length]`;
in particular every pool-size-many calls the same proxy is handed out
again, regardless of any notion of release. -/
theorem c1_getNext_round_robin (k : Nat) :
    ∀ pool : RotatingProxyPool,
      pool.currentIndex < pool.proxies.length →
      pool.getNextAt k =
        pool.proxies[(pool.currentIndex + k) % pool.proxies.length]? := by
  induction k with
  | zero =>
      intro pool h
      simp [RotatingProxyPool.getNextAt, RotatingProxyPool.getNext,
        Nat.mod_eq_of_lt h]
  | succ k ih =>
      intro pool h
      have hlen : 0 < pool.proxies.length := Nat.lt_of_le_of_lt (Nat.zero_le _) h
      have hidx : pool.getNext.2.currentIndex < pool.getNext.2.proxies.length := by
        rw [getNext_proxies, getNext_currentIndex]
        exact Nat.mod_lt _ hlen
      have := ih pool.getNext.2 hidx
      rw [RotatingProxyPool.getNextAt, this, getNext_proxies, getNext_currentIndex]
      have harith :
          ((pool.currentIndex + 1) % pool.proxies.length + k) % pool.proxies.length
            = (pool.currentIndex + (k + 1)) % pool.proxies.length := by
        rw [Nat.mod_add_mod]
        ring_nf
      rw [harith]

/-- Witness for `c1_getNext_round_robin`: on the one-proxy pool, the
third call wraps around to the single proxy again. -/
theorem c1_getNext_round_robin_witness :
    demoPool.getNextAt 2 = demoPool.proxies[(demoPool.currentIndex + 2) % demoPool.proxies.length]? :=
  c1_getNext_round_robin 2 demoPool (by decide)

/-! ## Ban detection and health-filtered proxy selection

JavaScript `Map<string, V>` objects (`bannedProxies`, `healthMap`) are
modelled as association lists with `Map.get` (first match) and `Map.set`
(replace or append) semantics. -/

/-- `Map.get`: the value stored under `k`, if any. -/
def getAssoc {α : Type} (m : List (String × α)) (k : String) : Option α :=
  (m.find? fun kv => kv.1 == k).map (·.2)

/-- `Map.set`: replace the entry under `k`, or append a new one. -/
def setAssoc {α : Type} (m : List (String × α)) (k : String) (v : α) :
    List (String × α) :=
  if m.any (fun kv => kv.1 == k) then
    m.map fun kv => if kv.1 == k then (k, v) else kv
  else
    m ++ [(k, v)]

theorem getAssoc_replace {α : Type} (m : List (String × α)) (k : String) (v : α)
    (h : m.any (fun kv => kv.1 == k) = true) :
    getAssoc (m.map fun kv => if kv.1 == k then (k, v) else kv) k = some v := by
  induction m with
  | nil => simp at h
  | cons hd tl ih =>
      by_cases hk : (hd.1 == k) = true
      · simp [getAssoc, List.find?, hk]
      · have h' : tl.any (fun kv => kv.1 == k) = true := by
          simpa [hk] using h
        simpa [getAssoc, List.find?, hk] using ih h'

theorem getAssoc_append_absent {α : Type} (m : List (String × α)) (k : String)
    (v : α) (h : m.any (fun kv => kv.1 == k) = false) :
    getAssoc (m ++ [(k, v)]) k = some v := by
  induction m with
  | nil => simp [getAssoc, List.find?]
  | cons hd tl ih =>
      simp only [List.any_cons, Bool.or_eq_false_iff] at h
      simpa [getAssoc, List.find?, h.1] using ih h.2

theorem getAssoc_setAssoc {α : Type} (m : List (String × α)) (k : String) (v : α) :
    getAssoc (setAssoc m k v) k = some v := by
  by_cases h : m.any (fun kv => kv.1 == k) = true
  · rw [setAssoc, if_pos h]
    exact getAssoc_replace m k v h
  · have h' : m.any (fun kv => kv.1 == k) = false := Bool.eq_false_iff.mpr h
    rw [setAssoc, if_neg h]
    exact getAssoc_append_absent m k v h'

/-- One entry of a proxy's ban list: `{ retailer: string; until: Date }`.
Dates are milliseconds since the epoch. -/
structure Ban where
  retailer : String
  «until» : Nat
  deriving Repr, DecidableEq

/-- A `ProxyHealth` record of the `ProxyHealthChecker`. -/
structure ProxyHealth where
  proxyId : String
  latency : Nat
  working : Bool
  lastChecked : Nat
  consecutiveFailures : Nat
  deriving Repr, DecidableEq

/-- `isProxyHealthy(proxyId)`: healthy when never checked, otherwise
`working && consecutiveFailures < 3 && latency < 5000`. -/
def isProxyHealthy (healthMap : List (String × ProxyHealth)) (proxyId : String) :
    Bool :=
  match getAssoc healthMap proxyId with
  | none => true
  | some health =>
      health.working && decide (health.consecutiveFailures < 3) &&
        decide (health.latency < 5000)

/-- The `BanDetector`, together with the proxy pool (`this.pool.getAll()`)
and the health checker state (`this.healthChecker.healthMap`) it reads. -/
structure BanDetector where
  bannedProxies : List (String × List Ban)
  pool : List ProxyConfig
  healthMap : List (String × ProxyHealth)
  deriving Repr, DecidableEq

/-- `markAsBanned(proxyId, retailer, durationMs)` at current time `now`:
appends `{retailer, until: now + durationMs}` to the proxy's ban list. -/
def BanDetector.markAsBanned (d : BanDetector) (proxyId retailer : String)
    (durationMs now : Nat) : BanDetector :=
  let bans := (getAssoc d.bannedProxies proxyId).getD []
  { d with
    bannedProxies :=
      setAssoc d.bannedProxies proxyId
        (bans ++ [{ retailer := retailer, «until» := now + durationMs }]) }

/-- `isBannedFor(proxyId, retailer)` at current time `now`: some ban for
this retailer has `until > now` (strict comparison, as in the source). -/
def BanDetector.isBannedFor (d : BanDetector) (proxyId retailer : String)
    (now : Nat) : Bool :=
  ((getAssoc d.bannedProxies proxyId).getD []).any fun ban =>
    ban.retailer == retailer && decide (now < ban.«until»)

/-- The selection predicate of `getAvailableProxy`: not banned for the
retailer and healthy. -/
def BanDetector.eligible (d : BanDetector) (retailer : String) (now : Nat)
    (p : ProxyConfig) : Bool :=
  !(d.isBannedFor p.id retailer now) && isProxyHealthy d.healthMap p.id

/-- `getAvailableProxy(retailer)` at current time `now`: the first proxy
in pool iteration order that is not banned for `retailer` and healthy. -/
def BanDetector.getAvailableProxy (d : BanDetector) (retailer : String)
    (now : Nat) : Option ProxyConfig :=
  d.pool.find? fun p =>
    !(d.isBannedFor p.id retailer now) && isProxyHealthy d.healthMap p.id

theorem getAvailableProxy_eq_find (d : BanDetector) (retailer : String)
    (now : Nat) :
    d.getAvailableProxy retailer now = d.pool.find? (d.eligible retailer now) :=
  rfl

theorem isBannedFor_markAsBanned (d : BanDetector) (pid r : String)
    (dur now t : Nat) (ht : t < now + dur) :
    (d.markAsBanned pid r dur now).isBannedFor pid r t = true := by
  unfold BanDetector.markAsBanned BanDetector.isBannedFor
  simp [getAssoc_setAssoc, ht]

/-- A second concrete proxy for the scoped-ban scenarios. -/
def demoProxy2 : ProxyConfig :=
  { id := "isp-1", host := "isp.oxylabs.io", port := 8001 }

/-- A detector over a two-proxy pool, no bans, no health records. -/
def demoDetector : BanDetector :=
  { bannedProxies := [], pool := [demoProxy, demoProxy2], healthMap := [] }

/-- `demoDetector` after banning `res-1` for retailer `target` for one
hour starting at time `0`. -/
def demoDetectorBanned : BanDetector :=
  demoDetector.markAsBanned "res-1" "target" 3600000 0

/-- **C2.**  After `markAsBanned(proxyId, retailer, duration)`, every
`getAvailableProxy(retailer)` call made while the ban is still live
(current time before `now + duration`) returns a proxy whose id differs
from the banned one; and a call for a different retailer scope may still
return the banned proxy — concretely, after banning `res-1` for `target`,
`getAvailableProxy("bestbuy")` still hands out `res-1`. -/
theorem c2_ban_is_scoped_and_exclusive :
    (∀ (d : BanDetector) (pid r : String) (dur now t : Nat) (p : ProxyConfig),
        t < now + dur →
        (d.markAsBanned pid r dur now).getAvailableProxy r t = some p →
        p.id ≠ pid) ∧
    (demoDetectorBanned.getAvailableProxy "target" 100 = some demoProxy2 ∧
     demoDetectorBanned.getAvailableProxy "bestbuy" 100 = some demoProxy) := by
  refine ⟨?_, by decide, by decide⟩
  intro d pid r dur now t p ht hp heq
  have hpred := List.find?_some hp
  rw [heq] at hpred
  rw [isBannedFor_markAsBanned d pid r dur now t ht] at hpred
  simp at hpred

/-- Witness for `c2_ban_is_scoped_and_exclusive`: the universal part
applied to the concrete banned detector at time `100 < 0 + 3600000`. -/
theorem c2_ban_is_scoped_and_exclusive_witness : demoProxy2.id ≠ "res-1" :=
  c2_ban_is_scoped_and_exclusive.1 demoDetector "res-1" "target" 3600000 0 100
    demoProxy2 (by decide) (by decide)

/-- First-match characterization of `List.find?`: a found element
satisfies the predicate and everything before it in the list fails it. -/
theorem find?_first_match {α : Type} (pred : α → Bool) :
    ∀ (l : List α) (a : α), l.find? pred = some a →
      pred a = true ∧
        ∃ l₁ l₂, l = l₁ ++ a :: l₂ ∧ ∀ q ∈ l₁, pred q = false := by
  intro l
  induction l with
  | nil => intro a h; simp [List.find?] at h
  | cons hd tl ih =>
      intro a h
      cases hph : pred hd with
      | true =>
          rw [List.find?_cons_of_pos _ hph] at h
          obtain rfl : hd = a := Option.some.inj h
          exact ⟨hph, [], tl, rfl, by simp⟩
      | false =>
          rw [List.find?_cons_of_neg _ (by simp [hph])] at h
          obtain ⟨hpa, l₁, l₂, heq, hall⟩ := ih a h
          refine ⟨hpa, hd :: l₁, l₂, by rw [heq]; rfl, ?_⟩
          intro q hq
          rcases List.mem_cons.mp hq with rfl | hq'
          · exact hph
          · exact hall q hq'

/-- Health record for `res-1`: working, fast, but with 2 recent
consecutive failures (still below the `< 3` health threshold). -/
def demoHealthWorn : ProxyHealth :=
  { proxyId := "res-1", latency := 120, working := true, lastChecked := 0,
    consecutiveFailures := 2 }

/-- Health record for `isp-1`: working, fast, zero recent failures. -/
def demoHealthFresh : ProxyHealth :=
  { proxyId := "isp-1", latency := 110, working := true, lastChecked := 0,
    consecutiveFailures := 0 }

/-- Detector whose pool lists the worn proxy first and the fresh proxy
second, with no bans recorded. -/
def demoDetectorWorn : BanDetector :=
  { bannedProxies := [],
    pool := [demoProxy, demoProxy2],
    healthMap := [("res-1", demoHealthWorn), ("isp-1", demoHealthFresh)] }

/-- **C4 (counterexample).**  The claim states that acquire always
selects an eligible resource with the lowest recent failure count and
never returns a resource while another eligible one has a strictly lower
count.  In `demoDetectorWorn`, proxy `res-1` has 2 recent consecutive
failures and `isp-1` has 0; both are eligible (healthy, unbanned), yet
`getAvailableProxy` returns `res-1` because it merely takes the first
eligible proxy in pool iteration order. -/
theorem c4_ignores_failure_count :
    demoDetectorWorn.getAvailableProxy "target" 0 = some demoProxy ∧
    demoDetectorWorn.eligible "target" 0 demoProxy2 = true ∧
    (getAssoc demoDetectorWorn.healthMap demoProxy2.id).map
        ProxyHealth.consecutiveFailures = some 0 ∧
    (getAssoc demoDetectorWorn.healthMap demoProxy.id).map
        ProxyHealth.consecutiveFailures = some 2 := by
  refine ⟨by decide, by decide, by decide, by decide⟩

/-- **C4 (amended).**  `getAvailableProxy` returns the first proxy in
pool iteration order that is eligible (not banned for the retailer and
healthy: working, fewer than 3 consecutive failures, latency below
5000ms); every proxy earlier in pool order is ineligible.  Failure
counts and recency of use play no role beyond the fixed health cutoff. -/
theorem c4_first_eligible_in_pool_order (d : BanDetector) (retailer : String)
    (now : Nat) (p : ProxyConfig)
    (h : d.getAvailableProxy retailer now = some p) :
    d.eligible retailer now p = true ∧
      ∃ l₁ l₂, d.pool = l₁ ++ p :: l₂ ∧
        ∀ q ∈ l₁, d.eligible retailer now q = false := by
  rw [getAvailableProxy_eq_find] at h
  exact find?_first_match (d.eligible retailer now) d.pool p h

/-- Witness for `c4_first_eligible_in_pool_order` at the concrete worn
detector: `res-1` is eligible and no proxy precedes it in pool order. -/
theorem c4_first_eligible_in_pool_order_witness :
    demoDetectorWorn.eligible "target" 0 demoProxy = true ∧
      ∃ l₁ l₂, demoDetectorWorn.pool = l₁ ++ demoProxy :: l₂ ∧
        ∀ q ∈ l₁, demoDetectorWorn.eligible "target" 0 q = false :=
  c4_first_eligible_in_pool_order demoDetectorWorn "target" 0 demoProxy
    (by decide)

/-! ## Stock monitoring loop

`monitorStock` (RETAILERS.md) loops `while (true)`: check stock, return
the status if in stock, otherwise sleep `checkInterval + jitter` with
`jitter = Math.random() * 2000 - 1000` and re-check.  The check results
are modelled as a stream `stock : Nat → StockStatus` indexed by check
number, randomness as a stream `rand : Nat → ℚ` of values in `[0, 1)`,
and the unbounded loop by an explicit fuel argument: `none` means the
loop is still running after that many checks.  The return type mirrors
the source's `Promise<StockStatus>` — it has no timeout variant. -/

/-- The `StockStatus` result of `checkStock`, reduced to the field the
monitor loop inspects. -/
structure StockStatus where
  inStock : Bool
  deriving Repr, DecidableEq

/-- The monitor loop from check `i` on, allowed `fuel` further checks. -/
def monitorStock (stock : Nat → StockStatus) (i : Nat) : Nat → Option StockStatus
  | 0 => none
  | fuel + 1 =>
      if (stock i).inStock then some (stock i)
      else monitorStock stock (i + 1) fuel

/-- The monitor loop, also recording the sleep performed after each
out-of-stock check: `checkInterval + (rand i * 2000 - 1000)`. -/
def monitorDelays (stock : Nat → StockStatus) (rand : Nat → ℚ)
    (checkInterval : ℚ) (i : Nat) : Nat → Option (StockStatus × List ℚ)
  | 0 => none
  | fuel + 1 =>
      if (stock i).inStock then some (stock i, [])
      else
        match monitorDelays stock rand checkInterval (i + 1) fuel with
        | none => none
        | some (s, ds) => some (s, (checkInterval + (rand i * 2000 - 1000)) :: ds)

theorem monitorStock_out_of_stock_forever (n : Nat) :
    ∀ i, monitorStock (fun _ => { inStock := false }) i n = none := by
  induction n with
  | zero => intro i; rfl
  | succ n ih =>
      intro i
      simpa [monitorStock] using ih (i + 1)

/-- **C3 (counterexample).**  The claim states that monitoring is bounded
by a configurable maximum duration after which the run fails with
`StockTimeout`.  The source loop is `while (true)` with no bound: on an
item that never comes in stock, no number of checks ever produces a
result — the loop never terminates, and its result type
(`Option StockStatus`, mirroring `Promise<StockStatus>`) has no timeout
outcome at all. -/
theorem c3_monitor_never_times_out :
    ¬ ∃ (n : Nat) (s : StockStatus),
        monitorStock (fun _ => { inStock := false }) 0 n = some s := by
  rintro ⟨n, s, h⟩
  rw [monitorStock_out_of_stock_forever n 0] at h
  exact Option.noConfusion h

/-- **C3 (amended).**  The monitoring loop is unbounded — there is no
maximum monitoring duration and no `StockTimeout` failure; it terminates
only when a check reports the item in stock: if check `k` reports in
stock then the loop returns an in-stock status within `k + 1` checks. -/
theorem c3_monitor_terminates_only_on_stock (k : Nat) :
    ∀ (stock : Nat → StockStatus) (i : Nat),
      (stock (i + k)).inStock = true →
      ∃ j, j ≤ k ∧ (stock (i + j)).inStock = true ∧
        monitorStock stock i (k + 1) = some (stock (i + j)) := by
  induction k with
  | zero =>
      intro stock i h
      rw [Nat.add_zero] at h
      exact ⟨0, Nat.le_refl 0, by simpa using h, by simp [monitorStock, h]⟩
  | succ k ih =>
      intro stock i h
      by_cases h0 : (stock i).inStock = true
      · exact ⟨0, Nat.zero_le _, by simpa using h0, by simp [monitorStock, h0]⟩
      · have h' : (stock ((i + 1) + k)).inStock = true := by
          have harith : (i + 1) + k = i + (k + 1) := by ring
          rw [harith]
          exact h
        obtain ⟨j, hj, hsj, hrun⟩ := ih stock (i + 1) h'
        refine ⟨j + 1, Nat.succ_le_succ hj, ?_, ?_⟩
        · have harith : i + (j + 1) = (i + 1) + j := by ring
          rw [harith]
          exact hsj
        · rw [monitorStock, if_neg h0]
          have harith : i + (j + 1) = (i + 1) + j := by ring
          rw [harith]
          exact hrun

/-- A stock stream that is out of stock for checks 0, 1, 2 and in stock
from check 3 on: the "three times out of stock, then in stock" scenario. -/
def stock3 : Nat → StockStatus := fun i => { inStock := decide (3 ≤ i) }

/-- Witness for `c3_monitor_terminates_only_on_stock` on `stock3`. -/
theorem c3_monitor_terminates_only_on_stock_witness :
    ∃ j, j ≤ 3 ∧ (stock3 (0 + j)).inStock = true ∧
      monitorStock stock3 0 4 = some (stock3 (0 + j)) :=
  c3_monitor_terminates_only_on_stock 3 stock3 0 (by decide)

/-- **C7 (counterexample).**  The claim states that with three
out-of-stock results followed by an in-stock result the run waits exactly
twice before proceeding.  In the source loop every out-of-stock check is
followed by a sleep, so three out-of-stock checks produce three sleeps,
not two. -/
theorem c7_three_waits_not_two :
    (monitorDelays stock3 (fun _ => (1 : ℚ) / 2) 5000 0 4).map
        (fun r => r.2.length) = some 3 ∧ (3 : Nat) ≠ 2 := by
  refine ⟨?_, by decide⟩
  simp [monitorDelays, stock3]

/-- **C7 (amended).**  With three out-of-stock results then an in-stock
result, the loop sleeps exactly three times before returning the in-stock
status, and — provided every random draw lies in `[0, 1)` — each sleep
lasts between `checkInterval - 1000` (inclusive) and `checkInterval +
1000` (exclusive) milliseconds: the jitter bound is the hard-coded
`Math.random() * 2000 - 1000`, not a configurable one. -/
theorem c7_waits_thrice_with_jitter_bounds (rand : Nat → ℚ) (ci : ℚ)
    (h : ∀ i, 0 ≤ rand i ∧ rand i < 1) :
    ∃ ds : List ℚ,
      monitorDelays stock3 rand ci 0 4 = some ({ inStock := true }, ds) ∧
      ds.length = 3 ∧
      ∀ d ∈ ds, ci - 1000 ≤ d ∧ d < ci + 1000 := by
  refine ⟨[ci + (rand 0 * 2000 - 1000), ci + (rand 1 * 2000 - 1000),
           ci + (rand 2 * 2000 - 1000)], ?_, rfl, ?_⟩
  · simp [monitorDelays, stock3]
  · have hb : ∀ i : Nat,
        ci - 1000 ≤ ci + (rand i * 2000 - 1000) ∧
          ci + (rand i * 2000 - 1000) < ci + 1000 := by
      intro i
      obtain ⟨h0, h1⟩ := h i
      constructor
      · nlinarith [mul_nonneg h0 (by norm_num : (0 : ℚ) ≤ 2000)]
      · nlinarith [mul_lt_mul_of_pos_right h1 (by norm_num : (0 : ℚ) < 2000)]
    intro d hd
    simp only [List.mem_cons, List.not_mem_nil, or_false] at hd
    rcases hd with rfl | rfl | rfl
    · exact hb 0
    · exact hb 1
    · exact hb 2

/-- Witness for `c7_waits_thrice_with_jitter_bounds` with the constant
random stream `1/2` and the default 5000ms check interval. -/
theorem c7_waits_thrice_with_jitter_bounds_witness :
    ∃ ds : List ℚ,
      monitorDelays stock3 (fun _ => (1 : ℚ) / 2) 5000 0 4 =
        some ({ inStock := true }, ds) ∧
      ds.length = 3 ∧
      ∀ d ∈ ds, (5000 : ℚ) - 1000 ≤ d ∧ d < 5000 + 1000 :=
  c7_waits_thrice_with_jitter_bounds (fun _ => (1 : ℚ) / 2) 5000
    (by intro i; norm_num)

/-! ## Retry wrapper

`withRetry(fn, maxAttempts = 3, delayMs = 1000)` (RETAILERS.md) runs
`fn` for `attempt = 1 .. maxAttempts`; a success returns immediately,
a failure records `lastError` and, when `attempt < maxAttempts`, sleeps
`delayMs * attempt` before the next attempt; after the loop the last
error is rethrown.  The outcome of the `attempt`-th invocation of `fn`
is modelled as `results attempt`; the trace records the final result,
the number of invocations, and the sleeps performed.  The `Option ε` in
the error position models the TypeScript `lastError` variable, which is
uninitialized (`none`) until a first failure. -/

/-- Execution trace of a `withRetry` run. -/
structure RetryTrace (ε α : Type) where
  result : Except (Option ε) α
  calls : Nat
  delays : List Nat

/-- The retry loop at 1-based attempt number `attempt`, with `remaining`
attempts still allowed and `lastError` the most recent failure. -/
def withRetryGo {ε α : Type} (results : Nat → Except ε α) (delayMs : Nat)
    (attempt : Nat) (lastError : Option ε) : Nat → RetryTrace ε α
  | 0 => { result := Except.error lastError, calls := 0, delays := [] }
  | remaining + 1 =>
      match results attempt with
      | Except.ok v => { result := Except.ok v, calls := 1, delays := [] }
      | Except.error e =>
          let rest := withRetryGo results delayMs (attempt + 1) (some e) remaining
          { result := rest.result,
            calls := rest.calls + 1,
            delays := (if 0 < remaining then [delayMs * attempt] else [])
              ++ rest.delays }

/-- `withRetry(fn, maxAttempts, delayMs)` with invocation outcomes
`results`. -/
def withRetry {ε α : Type} (results : Nat → Except ε α)
    (delayMs maxAttempts : Nat) : RetryTrace ε α :=
  withRetryGo results delayMs 1 none maxAttempts

theorem withRetryGo_calls_le {ε α : Type} (results : Nat → Except ε α)
    (delayMs : Nat) :
    ∀ (remaining attempt : Nat) (lastError : Option ε),
      (withRetryGo results delayMs attempt lastError remaining).calls ≤
        remaining := by
  intro remaining
  induction remaining with
  | zero => intro attempt lastError; exact Nat.le_refl 0
  | succ remaining ih =>
      intro attempt lastError
      rw [withRetryGo]
      cases results attempt with
      | ok v => exact Nat.succ_le_succ (Nat.zero_le _)
      | error e => exact Nat.succ_le_succ (ih (attempt + 1) (some e))

theorem withRetryGo_all_fail {ε α : Type} (results : Nat → Except ε α)
    (delayMs : Nat) :
    ∀ (remaining attempt : Nat) (lastError : Option ε), 0 < remaining →
      (∀ i, attempt ≤ i → i < attempt + remaining →
        ∃ e, results i = Except.error e) →
      ∃ e, results (attempt + remaining - 1) = Except.error e ∧
        (withRetryGo results delayMs attempt lastError remaining).result =
          Except.error (some e) := by
  intro remaining
  induction remaining with
  | zero => intro attempt lastError hpos; exact absurd hpos (by decide)
  | succ remaining ih =>
      intro attempt lastError _ hfail
      obtain ⟨e, he⟩ := hfail attempt (Nat.le_refl _) (by omega)
      rcases Nat.eq_zero_or_pos remaining with hz | hpos
      · subst hz
        refine ⟨e, by simpa using he, ?_⟩
        rw [withRetryGo, he]
        rfl
      · obtain ⟨e', he', hres⟩ :=
          ih (attempt + 1) (some e) hpos (by intro i h1 h2; exact hfail i (by omega) (by omega))
        refine ⟨e', by rw [show attempt + (remaining + 1) - 1 = attempt + 1 + remaining - 1 by omega]; exact he', ?_⟩
        rw [withRetryGo, he]
        exact hres

/-- **C6.**  `withRetry` invokes its function at most `maxAttempts`
times, and when every allowed attempt fails it propagates the error of
the final attempt (attempt number `maxAttempts`) as its own failure
instead of retrying further. -/
theorem c6_withRetry_bounded_and_propagates {ε α : Type}
    (results : Nat → Except ε α) (delayMs maxAttempts : Nat) :
    (withRetry results delayMs maxAttempts).calls ≤ maxAttempts ∧
    (0 < maxAttempts →
      (∀ i, 1 ≤ i → i ≤ maxAttempts → ∃ e, results i = Except.error e) →
      ∃ e, results maxAttempts = Except.error e ∧
        (withRetry results delayMs maxAttempts).result =
          Except.error (some e)) := by
  constructor
  · exact withRetryGo_calls_le results delayMs maxAttempts 1 none
  · intro hpos hfail
    obtain ⟨e, he, hres⟩ :=
      withRetryGo_all_fail results delayMs maxAttempts 1 none hpos
        (by intro i h1 h2; exact hfail i h1 (by omega))
    refine ⟨e, ?_, hres⟩
    rwa [show 1 + maxAttempts - 1 = maxAttempts by omega] at he

/-- Witness for `c6_withRetry_bounded_and_propagates`: three allowed
attempts against a function that fails every time with its attempt
number; the trace makes exactly 3 calls and ends with error 3. -/
theorem c6_withRetry_bounded_and_propagates_witness :
    (withRetry (fun i => (Except.error i : Except Nat Unit)) 1000 3).calls ≤ 3 ∧
    ∃ e, (Except.error 3 : Except Nat Unit) = Except.error e ∧
      (withRetry (fun i => (Except.error i : Except Nat Unit)) 1000 3).result =
        Except.error (some e) := by
  obtain ⟨h1, h2⟩ :=
    c6_withRetry_bounded_and_propagates
      (fun i => (Except.error i : Except Nat Unit)) 1000 3
  exact ⟨h1, h2 (by decide) (fun i h1 h2 => ⟨i, rfl⟩)⟩

/-- **C5 (counterexample).**  The claim states that retry delays grow
exponentially per consecutive failure and are capped at a configurable
ceiling.  With `delayMs = 1000` and four all-failing attempts, the
delays actually slept are `[1000, 2000, 3000]` — arithmetic growth: no
single ratio `r > 1` relates consecutive delays, so the progression is
not exponential (and nothing in the loop caps it). -/
theorem c5_delays_not_exponential :
    (withRetry (fun i => (Except.error i : Except Nat Unit)) 1000 4).delays =
        [1000, 2000, 3000] ∧
    ¬ ∃ r : ℚ, 1 < r ∧ (2000 : ℚ) = 1000 * r ∧ (3000 : ℚ) = 2000 * r := by
  constructor
  · rfl
  · rintro ⟨r, h1, h2, h3⟩
    linarith

theorem withRetryGo_delays {ε α : Type} (results : Nat → Except ε α)
    (delayMs : Nat) :
    ∀ (remaining attempt : Nat) (lastError : Option ε),
      (∀ i, attempt ≤ i → i < attempt + remaining →
        ∃ e, results i = Except.error e) →
      (withRetryGo results delayMs attempt lastError remaining).delays =
        (List.range (remaining - 1)).map (fun k => delayMs * (attempt + k)) := by
  intro remaining
  induction remaining with
  | zero => intro attempt lastError _; rfl
  | succ remaining ih =>
      intro attempt lastError hfail
      obtain ⟨e, he⟩ := hfail attempt (Nat.le_refl _) (by omega)
      simp only [withRetryGo, he]
      have hrest := ih (attempt + 1) (some e)
        (by intro i h1 h2; exact hfail i (by omega) (by omega))
      rcases Nat.eq_zero_or_pos remaining with hz | hpos
      · subst hz
        simpa using hrest
      · obtain ⟨m, rfl⟩ : ∃ m, remaining = m + 1 := ⟨remaining - 1, by omega⟩
        simp only [Nat.add_sub_cancel] at hrest
        rw [if_pos (Nat.succ_pos m), hrest]
        simp only [Nat.add_sub_cancel, List.singleton_append]
        rw [List.range_succ_eq_map, List.map_cons, List.map_map]
        have hfun : ((fun k => delayMs * (attempt + k)) ∘ Nat.succ) =
            fun k => delayMs * (attempt + 1 + k) := by
          funext k
          simp only [Function.comp_apply, Nat.succ_eq_add_one]
          ring
        rw [hfun]
        refine congrArg₂ List.cons (by ring) rfl

/-- **C5 (amended).**  The delay before each successive retry grows
linearly, not exponentially, and is uncapped: when every attempt fails,
the sleeps performed are exactly `delayMs * 1, delayMs * 2, …,
delayMs * (maxAttempts - 1)`. -/
theorem c5_delays_grow_linearly_uncapped {ε α : Type}
    (results : Nat → Except ε α) (delayMs maxAttempts : Nat)
    (hfail : ∀ i, 1 ≤ i → i ≤ maxAttempts → ∃ e, results i = Except.error e) :
    (withRetry results delayMs maxAttempts).delays =
      (List.range (maxAttempts - 1)).map (fun k => delayMs * (1 + k)) := by
  exact withRetryGo_delays results delayMs maxAttempts 1 none
    (by intro i h1 h2; exact hfail i h1 (by omega))

/-- Witness for `c5_delays_grow_linearly_uncapped` at `delayMs = 1000`,
`maxAttempts = 4`, all attempts failing. -/
theorem c5_delays_grow_linearly_uncapped_witness :
    (withRetry (fun i => (Except.error i : Except Nat Unit)) 1000 4).delays =
      (List.range 3).map (fun k => 1000 * (1 + k)) := by
  have h :=
    c5_delays_grow_linearly_uncapped
      (fun i => (Except.error i : Except Nat Unit)) 1000 4
      (fun i h1 h2 => ⟨i, rfl⟩)
  simpa using h

/-! ## Notifier sink

`notify(message, urgent)` (test-costco.ts) logs the message, and when
`CONFIG.discordWebhook` is a non-empty string it performs the webhook
`fetch` inside `try { … } catch (e) { console.error(…) }`.  The fetch
attempt's outcome is a parameter; the function's own outcome is
`Except.error` exactly when it would throw to its caller. -/

/-- `notify`: webhook configuration (empty string = unset, as the source
tests truthiness of the config string) and the outcome the `fetch` call
would have. -/
def notify (discordWebhook : String) (fetchOutcome : Except String Unit) :
    Except String Unit :=
  if discordWebhook == "" then Except.ok ()
  else
    match fetchOutcome with
    | Except.ok _ => Except.ok ()
    | Except.error _ => Except.ok ()

/-- **C8.**  `notify` is fire-and-forget: whatever the webhook
configuration and whatever the fate of the webhook request, it returns
normally — a failed fetch is swallowed by the `catch` and an unset
webhook skips the request entirely, so no error ever propagates to the
caller. -/
theorem c8_notify_never_throws (discordWebhook : String)
    (fetchOutcome : Except String Unit) :
    notify discordWebhook fetchOutcome = Except.ok () := by
  unfold notify
  split
  · rfl
  · cases fetchOutcome <;> rfl

/-! ## MCP browser-automation server

The `wait` tool (mcp/server.ts) computes
`seconds = Math.min(Math.max(args.seconds, 1), 30)` and sleeps
`seconds * 1000` milliseconds.  JavaScript numbers at play are small and
exactly representable, modelled as `ℚ`. -/

/-- The clamped seconds actually waited by the `wait` tool. -/
def waitToolSeconds (seconds : ℚ) : ℚ :=
  min (max seconds 1) 30

/-- The `setTimeout` delay of the `wait` tool, in milliseconds. -/
def waitToolDelayMs (seconds : ℚ) : ℚ :=
  waitToolSeconds seconds * 1000

/-- **C9.**  The `wait` tool clamps its argument to `[1, 30]`: the
seconds waited are exactly `min(max(s, 1), 30)`, hence always between 1
and 30 — the timeout passed to `setTimeout` is between 1000 and 30000
milliseconds no matter what number the caller supplies. -/
theorem c9_wait_clamped_to_1_30 (s : ℚ) :
    waitToolSeconds s = min (max s 1) 30 ∧
    1 ≤ waitToolSeconds s ∧ waitToolSeconds s ≤ 30 ∧
    1000 ≤ waitToolDelayMs s ∧ waitToolDelayMs s ≤ 30000 := by
  have h1 : 1 ≤ waitToolSeconds s :=
    le_min (le_max_right s 1) (by norm_num)
  have h2 : waitToolSeconds s ≤ 30 := min_le_right _ _
  refine ⟨rfl, h1, h2, ?_, ?_⟩
  · unfold waitToolDelayMs
    nlinarith
  · unfold waitToolDelayMs
    nlinarith

/-- A live browser page handle (opaque beyond identity). -/
structure Page where
  sessionId : Nat
  deriving Repr, DecidableEq

/-- The error message thrown by `getPage()` in browser/launcher.ts. -/
def browserNotLaunchedMsg : String :=
  "Browser not launched. Call launchBrowser() first."

/-- `getPage()` (browser/launcher.ts): throws when the module-level
`page` is still `null`, otherwise returns it. -/
def getPage (page : Option Page) : Except String Page :=
  match page with
  | none => Except.error browserNotLaunchedMsg
  | some p => Except.ok p

/-- The tools exposed by the MCP server. -/
inductive ToolName where
  | launch_browser
  | screenshot
  | navigate
  | click
  | type_text
  | scroll
  | get_page_info
  | check_element
  | wait
  | save_session
  | load_session
  | close_browser
  deriving Repr, DecidableEq

/-- The tools whose handler begins with `page = await getPage()`. -/
def browserDependent : ToolName → Bool
  | .screenshot => true
  | .navigate => true
  | .click => true
  | .type_text => true
  | .scroll => true
  | .get_page_info => true
  | .check_element => true
  | _ => false

/-- `handleToolCall(name, args)` restricted to its browser-state
behaviour: each browser-dependent case first awaits `getPage()`, whose
thrown error propagates out of the switch; the remaining cases never
touch the page.  The success payloads summarize the returned message. -/
def handleToolCall (name : ToolName) (page : Option Page) :
    Except String String :=
  match name with
  | .launch_browser => Except.ok "Browser launched with stealth mode"
  | .screenshot => do let _ ← getPage page; Except.ok "Screenshot saved"
  | .navigate => do let _ ← getPage page; Except.ok "Navigated"
  | .click => do let _ ← getPage page; Except.ok "Clicked"
  | .type_text => do let _ ← getPage page; Except.ok "Typed text"
  | .scroll => do let _ ← getPage page; Except.ok "Scrolled"
  | .get_page_info => do let _ ← getPage page; Except.ok "Page info"
  | .check_element => do let _ ← getPage page; Except.ok "Element checked"
  | .wait => Except.ok "Waited"
  | .save_session => Except.ok "Session saved"
  | .load_session => Except.ok "Session loaded"
  | .close_browser => Except.ok "Browser closed"

/-- The response the `CallToolRequestSchema` handler sends back. -/
structure ToolResponse where
  text : String
  isError : Bool
  deriving Repr, DecidableEq

/-- The `CallToolRequestSchema` handler: runs `handleToolCall` inside
`try { … } catch (error) { return { …, isError: true } }` — a total
function, every thrown error becomes an `isError` response. -/
def callToolHandler (name : ToolName) (page : Option Page) : ToolResponse :=
  match handleToolCall name page with
  | Except.ok r => { text := r, isError := false }
  | Except.error e => { text := e, isError := true }

/-- **C10.**  Every browser-dependent tool (screenshot, navigate, click,
type_text, scroll, get_page_info, check_element) invoked before
`launch_browser` fails with exactly the `getPage` message
"Browser not launched. Call launchBrowser() first."; and the request
handler turns every error any tool throws into an `isError` response
rather than crashing (it is a total function into `ToolResponse`). -/
theorem c10_browser_tools_guarded_and_errors_caught (t : ToolName) :
    (browserDependent t = true →
      handleToolCall t none = Except.error browserNotLaunchedMsg ∧
      (callToolHandler t none).isError = true) ∧
    (∀ (page : Option Page) (e : String),
      handleToolCall t page = Except.error e →
      callToolHandler t page = { text := e, isError := true }) := by
  constructor
  · intro h
    cases t <;> simp [browserDependent] at h <;> exact ⟨rfl, rfl⟩
  · intro page e h
    unfold callToolHandler
    rw [h]

/-- Witness for `c10_browser_tools_guarded_and_errors_caught`: the
`screenshot` tool before launch fails with the `getPage` message and the
handler reports it as an `isError` response. -/
theorem c10_browser_tools_guarded_and_errors_caught_witness :
    (handleToolCall ToolName.screenshot none =
        Except.error browserNotLaunchedMsg ∧
      (callToolHandler ToolName.screenshot none).isError = true) ∧
    callToolHandler ToolName.screenshot none =
      { text := browserNotLaunchedMsg, isError := true } :=
  ⟨(c10_browser_tools_guarded_and_errors_caught ToolName.screenshot).1 rfl,
   (c10_browser_tools_guarded_and_errors_caught ToolName.screenshot).2 none
      browserNotLaunchedMsg rfl⟩

end MakeItRain
